import Mathlib

/-!
# Verification of the modelica-rust-ffi runtime logic

Shallow embedding of the executable logic of the `modelica-rust-ffi`
repository: the thermal simulation runtime (`src/runtime/modelica_runtime.rs`),
the trait-level thermal component (`src/components/simple_thermal.rs`) and the
component registry (`src/registry.rs`).

Modelling conventions:
* Rust `f64` is embedded as `F`: an exact rational together with the IEEE
  special values NaN, +∞ and −∞.  Arithmetic on finite values is exact
  (no rounding, no overflow to infinity), while the IEEE rules for the
  special values (NaN propagation, ∞ − ∞ = NaN, division by zero, …) are
  kept, since the code branches on `is_finite`.  Signed zero is not
  modelled.
* `HashMap` is embedded as an association list with replace-in-place
  insertion; `Uuid` is embedded as `Nat`, and the random `Uuid::new_v4()`
  draw is passed to `ComponentRegistry.add` as an explicit argument.
* Methods taking `&mut self` are embedded as state-passing functions
  returning the `Result` together with the post-state, so that
  "the state is unchanged on failure" is expressible: an early `return Err`
  in Rust leaves `self` exactly as the preceding statements left it.
-/

set_option autoImplicit false
set_option linter.unusedSectionVars false

/-- Embedded `f64`: an exact rational, or one of the IEEE special values. -/
inductive F where
  | num (q : ℚ)
  | nan
  | inf
  | ninf
deriving DecidableEq

namespace F

/-- Rust `f64::is_finite`. -/
def isFinite : F → Bool
  | num _ => true
  | _ => false

/-- Rust `f64::is_nan`. -/
def isNan : F → Bool
  | nan => true
  | _ => false

/-- IEEE addition (exact on finite values). -/
def add : F → F → F
  | nan, _ => nan
  | _, nan => nan
  | num a, num b => num (a + b)
  | num _, inf => inf
  | num _, ninf => ninf
  | inf, num _ => inf
  | inf, inf => inf
  | inf, ninf => nan
  | ninf, num _ => ninf
  | ninf, inf => nan
  | ninf, ninf => ninf

/-- IEEE negation. -/
def neg : F → F
  | num a => num (-a)
  | nan => nan
  | inf => ninf
  | ninf => inf

/-- IEEE subtraction. -/
def sub (a b : F) : F := a.add b.neg

/-- IEEE multiplication (exact on finite values; `0 * ∞ = NaN`). -/
def mul : F → F → F
  | nan, _ => nan
  | _, nan => nan
  | num a, num b => num (a * b)
  | num a, inf => if a = 0 then nan else if 0 < a then inf else ninf
  | num a, ninf => if a = 0 then nan else if 0 < a then ninf else inf
  | inf, num b => if b = 0 then nan else if 0 < b then inf else ninf
  | ninf, num b => if b = 0 then nan else if 0 < b then ninf else inf
  | inf, inf => inf
  | inf, ninf => ninf
  | ninf, inf => ninf
  | ninf, ninf => inf

/-- IEEE division (exact on finite values; `x / 0` follows the sign rules
with the unsigned zero of this model read as `+0`). -/
def div : F → F → F
  | nan, _ => nan
  | _, nan => nan
  | num a, num b =>
      if b = 0 then (if a = 0 then nan else if 0 < a then inf else ninf)
      else num (a / b)
  | num _, inf => num 0
  | num _, ninf => num 0
  | inf, num b => if 0 ≤ b then inf else ninf
  | ninf, num b => if 0 ≤ b then ninf else inf
  | inf, inf => nan
  | inf, ninf => nan
  | ninf, inf => nan
  | ninf, ninf => nan

/-- IEEE `<` as a Bool (false whenever either side is NaN). -/
def lt : F → F → Bool
  | num a, num b => decide (a < b)
  | num _, inf => true
  | ninf, num _ => true
  | ninf, inf => true
  | _, _ => false

/-- IEEE `≤` as a Bool (false whenever either side is NaN). -/
def le : F → F → Bool
  | num a, num b => decide (a ≤ b)
  | num _, inf => true
  | ninf, num _ => true
  | ninf, inf => true
  | inf, inf => true
  | ninf, ninf => true
  | _, _ => false

@[simp] theorem isFinite_num (q : ℚ) : (num q).isFinite = true := rfl
@[simp] theorem isFinite_nan : (nan).isFinite = false := rfl
@[simp] theorem isFinite_inf : (inf).isFinite = false := rfl
@[simp] theorem isFinite_ninf : (ninf).isFinite = false := rfl
@[simp] theorem add_num (a b : ℚ) : (num a).add (num b) = num (a + b) := rfl
@[simp] theorem sub_num (a b : ℚ) : (num a).sub (num b) = num (a - b) := by
  simp [sub, neg, add, sub_eq_add_neg]
@[simp] theorem mul_num (a b : ℚ) : (num a).mul (num b) = num (a * b) := rfl
@[simp] theorem lt_num (a b : ℚ) : (num a).lt (num b) = decide (a < b) := rfl
@[simp] theorem le_num (a b : ℚ) : (num a).le (num b) = decide (a ≤ b) := rfl

@[simp] theorem div_num_of_ne (a b : ℚ) (hb : b ≠ 0) :
    (num a).div (num b) = num (a / b) := by
  simp [div, hb]

end F

/-! ## Association lists (embedding of `std::collections::HashMap`)

`alget` is `HashMap::get`, `alcontains` is `HashMap::contains_key`,
`alinsert` is `HashMap::insert` (replacing the value of an existing key in
place), `alerase` is `HashMap::remove`. -/

section AList

variable {κ : Type} {β : Type} [DecidableEq κ]

/-- Embedded `HashMap::get` on an association list: first entry with the given key. -/
def alget (k : κ) : List (κ × β) → Option β
  | [] => none
  | p :: ps => if p.1 = k then some p.2 else alget k ps

/-- Embedded `HashMap::contains_key`. -/
def alcontains (k : κ) (m : List (κ × β)) : Bool := (alget k m).isSome

/-- Embedded `HashMap::insert`: replace the value of an existing key in place,
otherwise append the new entry. -/
def alinsert (k : κ) (v : β) : List (κ × β) → List (κ × β)
  | [] => [(k, v)]
  | p :: ps => if p.1 = k then (k, v) :: ps else p :: alinsert k v ps

/-- Embedded `HashMap::remove`: drop the entry with the given key. -/
def alerase (k : κ) : List (κ × β) → List (κ × β)
  | [] => []
  | p :: ps => if p.1 = k then ps else p :: alerase k ps

@[simp] theorem alget_nil (k : κ) : alget k ([] : List (κ × β)) = none := rfl

@[simp] theorem alget_cons (k : κ) (p : κ × β) (ps : List (κ × β)) :
    alget k (p :: ps) = if p.1 = k then some p.2 else alget k ps := rfl

@[simp] theorem alget_alinsert_self (k : κ) (v : β) (m : List (κ × β)) :
    alget k (alinsert k v m) = some v := by
  induction m with
  | nil => simp [alinsert]
  | cons p ps ih =>
      by_cases h : p.1 = k <;> simp [alinsert, h, ih]

theorem alget_alinsert_ne (k k' : κ) (v : β) (m : List (κ × β)) (h : k' ≠ k) :
    alget k' (alinsert k v m) = alget k' m := by
  induction m with
  | nil => simp [alinsert, Ne.symm h]
  | cons p ps ih =>
      by_cases hp : p.1 = k
      · subst hp
        simp [alinsert, Ne.symm h]
      · simp [alinsert, hp, ih]

theorem alcontains_alinsert (k k' : κ) (v : β) (m : List (κ × β)) :
    alcontains k' (alinsert k v m) = (k' = k ∨ alcontains k' m = true : Prop) := by
  by_cases h : k' = k
  · subst h; simp [alcontains]
  · simp [alcontains, alget_alinsert_ne k k' v m h, h]

theorem keys_alinsert_of_contains (k : κ) (v : β) (m : List (κ × β))
    (h : alcontains k m = true) :
    (alinsert k v m).map Prod.fst = m.map Prod.fst := by
  induction m with
  | nil => simp [alcontains, alget] at h
  | cons p ps ih =>
      by_cases hp : p.1 = k
      · simp [alinsert, hp]
      · simp [alcontains, alget, hp] at h
        simp [alinsert, hp, ih h]

theorem alget_alerase_ne (k k' : κ) (m : List (κ × β)) (h : k' ≠ k) :
    alget k' (alerase k m) = alget k' m := by
  induction m with
  | nil => simp [alerase]
  | cons p ps ih =>
      by_cases hp : p.1 = k
      · subst hp
        simp [alerase, Ne.symm h]
      · simp [alerase, hp, ih]

theorem mem_alinsert (k : κ) (v : β) (m : List (κ × β)) (q : κ × β)
    (h : q ∈ alinsert k v m) : q = (k, v) ∨ q ∈ m := by
  induction m with
  | nil => simpa [alinsert] using h
  | cons p ps ih =>
      by_cases hp : p.1 = k
      · simp [alinsert, hp] at h
        rcases h with h | h
        · exact Or.inl h
        · exact Or.inr (List.mem_cons_of_mem _ h)
      · simp [alinsert, hp] at h
        rcases h with h | h
        · exact Or.inr (by simp [h])
        · rcases ih h with h' | h'
          · exact Or.inl h'
          · exact Or.inr (List.mem_cons_of_mem _ h')

end AList

/-! ## `ComponentError` (src/component.rs) -/

/-- The error enumeration of `src/component.rs`.  Formatted-number parts of
the Rust messages are not reproduced; the key-naming parts are. -/
inductive ComponentError where
  | InitializationFailed (msg : String)
  | StepFailed (msg : String)
  | InvalidInput (msg : String)
  | InvalidOutput (msg : String)
  | MemoryError (msg : String)
  | RuntimeError (msg : String)
  | VariableNotFound (name : String)
  | BoundsCheckFailed (name : String) (value lo hi : F)
  | ThreadSafetyError (msg : String)
deriving DecidableEq

/-! ## `SimpleThermalComponent` (src/components/simple_thermal.rs)

The trait-level thermal component holds three cached fields and performs a
hard-coded Euler step with no timestep validation. -/

structure SimpleThermalComponent where
  temperature : F
  heater_status : F
  heater_on : Bool
deriving DecidableEq

namespace SimpleThermalComponent

/-- Embedded `SimpleThermalComponent::new`. -/
def new : SimpleThermalComponent :=
  { temperature := F.num 250, heater_status := F.num 0, heater_on := false }

/-- Embedding of the initialization method of the thermal component (the British
spelling avoids a reserved word). -/
def initialise (_c : SimpleThermalComponent) :
    Except ComponentError Unit × SimpleThermalComponent :=
  (Except.ok (), { temperature := F.num 250, heater_status := F.num 0, heater_on := false })

/-- Embedded `SimpleThermalComponent::set_input`: the component has no real inputs. -/
def set_input (c : SimpleThermalComponent) (name : String) (_value : F) :
    Except ComponentError Unit × SimpleThermalComponent :=
  (Except.error (ComponentError.InvalidInput
      ("SimpleThermal has no real inputs. Got: " ++ name)), c)

/-- Embedded `SimpleThermalComponent::set_bool_input`. -/
def set_bool_input (c : SimpleThermalComponent) (name : String) (value : Bool) :
    Except ComponentError Unit × SimpleThermalComponent :=
  if name = "heaterOn" then
    (Except.ok (), { c with heater_on := value })
  else
    (Except.error (ComponentError.InvalidInput ("Unknown boolean input: " ++ name)), c)

/-- Embedded `SimpleThermalComponent::get_output`. -/
def get_output (c : SimpleThermalComponent) (name : String) :
    Except ComponentError F :=
  if name = "temperature" then Except.ok c.temperature
  else if name = "heaterStatus" then Except.ok c.heater_status
  else Except.error (ComponentError.InvalidOutput ("Unknown output: " ++ name))

/-- Embedded `SimpleThermalComponent::step`: unconditional Euler update with the
hard-coded constants; note that the source performs no validation of `dt`
and never fails. -/
def step (c : SimpleThermalComponent) (dt : F) :
    Except ComponentError Unit × SimpleThermalComponent :=
  let room_capacity := F.num 1000
  let ambient_temp := F.num 250
  let heater_power := F.num 500
  let loss_coefficient := F.num 2
  let heating := if c.heater_on then heater_power else F.num 0
  let losses := loss_coefficient.mul (c.temperature.sub ambient_temp)
  let d_temp := ((heating.sub losses).div room_capacity).mul dt
  (Except.ok (),
    { c with
        temperature := c.temperature.add d_temp,
        heater_status := if c.heater_on then F.num 1 else F.num 0 })

/-- Embedded `SimpleThermalComponent::reset`. -/
def reset (_c : SimpleThermalComponent) :
    Except ComponentError Unit × SimpleThermalComponent :=
  (Except.ok (), { temperature := F.num 250, heater_status := F.num 0, heater_on := false })

end SimpleThermalComponent

/-! ## `ModelicaRuntime` (src/runtime/modelica_runtime.rs)

The runtime backing the "SimpleThermalMVP" thermal simulation: a named
variable store (real and boolean), a component name and a simulation time. -/

/-- The Euler-updated temperature of `step_simple_thermal`, i.e. the
source's locals
`heating = if heater_on { heater_power } else { 0.0 }`,
`losses = loss_coefficient * (room_temp - ambient_temp)`,
`d_temp = (heating - losses) / room_capacity * dt` and
`new_temp = room_temp + d_temp`, as one expression over the looked-up
state `T`, parameters, heater flag `b` and timestep `dt`. -/
def eulerTemp (T cap amb pow loss : F) (b : Bool) (dt : F) : F :=
  T.add ((((if b then pow else F.num 0).sub (loss.mul (T.sub amb))).div cap).mul dt)

/-- The `heaterStatus` value written by a step: `1.0` if the heater is on,
else `0.0`. -/
def heaterStatusVal (b : Bool) : F :=
  if b then F.num 1 else F.num 0

structure ModelicaRuntime where
  component_name : String
  real_vars : List (String × F)
  bool_vars : List (String × Bool)
  time : F
deriving DecidableEq

namespace ModelicaRuntime

/-- Embedded `ModelicaRuntime::new`. -/
def new (cname : String) : Except ComponentError ModelicaRuntime :=
  if cname = "" then
    Except.error (ComponentError.InitializationFailed "Component name cannot be empty")
  else if cname = "SimpleThermalMVP" then
    Except.ok
      { component_name := cname,
        real_vars :=
          alinsert "lossCoefficient" (F.num 2)
          (alinsert "heaterPower" (F.num 500)
          (alinsert "ambientTemp" (F.num 250)
          (alinsert "roomCapacity" (F.num 1000)
          (alinsert "heaterStatus" (F.num 0)
          (alinsert "temperature" (F.num 250)
          (alinsert "roomTemp" (F.num 250) [])))))),
        bool_vars := alinsert "heaterOn" false [],
        time := F.num 0 }
  else
    Except.error (ComponentError.InitializationFailed ("Unknown component: " ++ cname))

/-- Embedded `ModelicaRuntime::get_real_variable`. -/
def get_real_variable (rt : ModelicaRuntime) (name : String) :
    Except ComponentError F :=
  match alget name rt.real_vars with
  | some v => Except.ok v
  | none => Except.error (ComponentError.VariableNotFound name)

/-- Embedded `ModelicaRuntime::set_real_variable`: finiteness check, existence check,
then the hard-coded bounds check for `temperature` / `roomTemp`. -/
def set_real_variable (rt : ModelicaRuntime) (name : String) (value : F) :
    Except ComponentError Unit × ModelicaRuntime :=
  if ¬ value.isFinite then
    (Except.error (ComponentError.InvalidInput
        ("Value for '" ++ name ++ "' must be finite")), rt)
  else if ¬ alcontains name rt.real_vars then
    (Except.error (ComponentError.VariableNotFound name), rt)
  else if (name = "temperature" ∨ name = "roomTemp") ∧
      (value.lt (F.num 0) ∨ (F.num 1000).lt value) then
    (Except.error (ComponentError.BoundsCheckFailed name value (F.num 0) (F.num 1000)), rt)
  else
    (Except.ok (), { rt with real_vars := alinsert name value rt.real_vars })

/-- Embedded `ModelicaRuntime::get_bool_variable`. -/
def get_bool_variable (rt : ModelicaRuntime) (name : String) :
    Except ComponentError Bool :=
  match alget name rt.bool_vars with
  | some v => Except.ok v
  | none => Except.error (ComponentError.VariableNotFound name)

/-- Embedded `ModelicaRuntime::set_bool_variable`. -/
def set_bool_variable (rt : ModelicaRuntime) (name : String) (value : Bool) :
    Except ComponentError Unit × ModelicaRuntime :=
  if ¬ alcontains name rt.bool_vars then
    (Except.error (ComponentError.VariableNotFound name), rt)
  else
    (Except.ok (), { rt with bool_vars := alinsert name value rt.bool_vars })

/-- Embedded `ModelicaRuntime::step_simple_thermal`: the Euler update over the
variable store, with the non-finite-temperature guard.  The `heating` /
`losses` / `d_temp` / `new_temp` locals of the source are packaged in
`eulerTemp`, and the `heaterStatus` value in `heaterStatusVal`.  A failing
`set_real_variable` propagates the state as mutated so far, exactly as the
Rust `?` operator does. -/
def step_simple_thermal (rt : ModelicaRuntime) (dt : F) :
    Except ComponentError Unit × ModelicaRuntime :=
  match rt.get_real_variable "roomTemp" with
  | Except.error e => (Except.error e, rt)
  | Except.ok room_temp =>
  match rt.get_real_variable "roomCapacity" with
  | Except.error e => (Except.error e, rt)
  | Except.ok room_capacity =>
  match rt.get_real_variable "ambientTemp" with
  | Except.error e => (Except.error e, rt)
  | Except.ok ambient_temp =>
  match rt.get_real_variable "heaterPower" with
  | Except.error e => (Except.error e, rt)
  | Except.ok heater_power =>
  match rt.get_real_variable "lossCoefficient" with
  | Except.error e => (Except.error e, rt)
  | Except.ok loss_coefficient =>
  match rt.get_bool_variable "heaterOn" with
  | Except.error e => (Except.error e, rt)
  | Except.ok heater_on =>
  if ¬ (eulerTemp room_temp room_capacity ambient_temp heater_power
          loss_coefficient heater_on dt).isFinite then
    (Except.error (ComponentError.StepFailed
        "Temperature calculation resulted in non-finite value"), rt)
  else
  match rt.set_real_variable "roomTemp"
      (eulerTemp room_temp room_capacity ambient_temp heater_power
        loss_coefficient heater_on dt) with
  | (Except.error e, rt1) => (Except.error e, rt1)
  | (Except.ok _, rt1) =>
  match rt1.set_real_variable "temperature"
      (eulerTemp room_temp room_capacity ambient_temp heater_power
        loss_coefficient heater_on dt) with
  | (Except.error e, rt2) => (Except.error e, rt2)
  | (Except.ok _, rt2) =>
  match rt2.set_real_variable "heaterStatus" (heaterStatusVal heater_on) with
  | (Except.error e, rt3) => (Except.error e, rt3)
  | (Except.ok _, rt3) => (Except.ok (), rt3)

/-- Embedded `ModelicaRuntime::step`: timestep validation, dispatch on the component
name, then the time advance. -/
def step (rt : ModelicaRuntime) (dt : F) :
    Except ComponentError Unit × ModelicaRuntime :=
  if dt.le (F.num 0) ∨ ¬ dt.isFinite then
    (Except.error (ComponentError.StepFailed
        "Invalid timestep. Must be positive and finite."), rt)
  else if rt.component_name = "SimpleThermalMVP" then
    match rt.step_simple_thermal dt with
    | (Except.error e, rt') => (Except.error e, rt')
    | (Except.ok _, rt') => (Except.ok (), { rt' with time := rt'.time.add dt })
  else
    (Except.error (ComponentError.StepFailed "Component has no step implementation"), rt)

/-- Embedded `ModelicaRuntime::reset`: restore the thermal state from the stored
`ambientTemp` (defaulting to 250.0) and zero the clock. -/
def reset (rt : ModelicaRuntime) :
    Except ComponentError Unit × ModelicaRuntime :=
  if rt.component_name = "SimpleThermalMVP" then
    let ambient := (alget "ambientTemp" rt.real_vars).getD (F.num 250)
    match rt.set_real_variable "roomTemp" ambient with
    | (Except.error e, rt1) => (Except.error e, rt1)
    | (Except.ok _, rt1) =>
    match rt1.set_real_variable "temperature" ambient with
    | (Except.error e, rt2) => (Except.error e, rt2)
    | (Except.ok _, rt2) =>
    match rt2.set_real_variable "heaterStatus" (F.num 0) with
    | (Except.error e, rt3) => (Except.error e, rt3)
    | (Except.ok _, rt3) =>
    match rt3.set_bool_variable "heaterOn" false with
    | (Except.error e, rt4) => (Except.error e, rt4)
    | (Except.ok _, rt4) => (Except.ok (), { rt4 with time := F.num 0 })
  else
    (Except.ok (), { rt with time := F.num 0 })

end ModelicaRuntime

/-- The initial runtime produced by `ModelicaRuntime::new("SimpleThermalMVP")`,
written out as an explicit store. -/
def rtInit : ModelicaRuntime :=
  { component_name := "SimpleThermalMVP",
    real_vars :=
      [("roomTemp", F.num 250), ("temperature", F.num 250),
       ("heaterStatus", F.num 0), ("roomCapacity", F.num 1000),
       ("ambientTemp", F.num 250), ("heaterPower", F.num 500),
       ("lossCoefficient", F.num 2)],
    bool_vars := [("heaterOn", false)],
    time := F.num 0 }

theorem new_simple_thermal : ModelicaRuntime.new "SimpleThermalMVP" = Except.ok rtInit := by
  rfl

/-! ## `ComponentRegistry` (src/registry.rs)

Generic over the stored component type (the Rust registry stores boxed
trait objects).  `Uuid` is embedded as `Nat`; the random draw of
`Uuid::new_v4()` is an explicit argument of `add`. -/

structure ComponentRegistry (C : Type) where
  components : List (Nat × C)
  name_to_id : List (String × Nat)

namespace ComponentRegistry

variable {C : Type}

/-- Embedded `ComponentRegistry::new`. -/
def new (C : Type) : ComponentRegistry C :=
  { components := [], name_to_id := [] }

/-- Embedded `ComponentRegistry::add_component`. -/
def add_component (r : ComponentRegistry C) (id : Nat) (name : String) (c : C) :
    Except ComponentError Unit × ComponentRegistry C :=
  if alcontains name r.name_to_id then
    (Except.error (ComponentError.InitializationFailed
        ("Component with name '" ++ name ++ "' already exists")), r)
  else
    (Except.ok (),
      { components := alinsert id c r.components,
        name_to_id := alinsert name id r.name_to_id })

/-- Embedded `ComponentRegistry::add`; `freshId` stands for the `Uuid::new_v4()` draw. -/
def add (r : ComponentRegistry C) (freshId : Nat) (name : String) (c : C) :
    Except ComponentError Nat × ComponentRegistry C :=
  match r.add_component freshId name c with
  | (Except.error e, r') => (Except.error e, r')
  | (Except.ok _, r') => (Except.ok freshId, r')

/-- Embedded `ComponentRegistry::remove`: drop the component, then retain only the
name mappings not pointing to `id`. -/
def remove (r : ComponentRegistry C) (id : Nat) :
    Except ComponentError Unit × ComponentRegistry C :=
  if alcontains id r.components then
    (Except.ok (),
      { components := alerase id r.components,
        name_to_id := r.name_to_id.filter (fun p => decide (p.2 ≠ id)) })
  else
    (Except.error (ComponentError.InvalidInput
        ("Component " ++ toString id ++ " not found")), r)

/-- Embedded `ComponentRegistry::get`. -/
def get (r : ComponentRegistry C) (id : Nat) : Option C :=
  alget id r.components

/-- Embedded `ComponentRegistry::get_by_name`. -/
def get_by_name (r : ComponentRegistry C) (name : String) : Option C :=
  (alget name r.name_to_id).bind (fun id => alget id r.components)

end ComponentRegistry

/-! ### Further association-list lemmas (for the registry claims) -/

section AListMore

variable {κ : Type} {β : Type} [DecidableEq κ]

theorem alget_eq_none_of_not_mem (k : κ) (m : List (κ × β))
    (h : k ∉ m.map Prod.fst) : alget k m = none := by
  induction m with
  | nil => simp
  | cons p ps ih =>
      rw [List.map_cons, List.mem_cons] at h
      push_neg at h
      have hne : ¬ p.1 = k := fun hh => h.1 hh.symm
      simp [alget, hne, ih h.2]

theorem alget_alerase_self (k : κ) (m : List (κ × β))
    (hnd : (m.map Prod.fst).Nodup) : alget k (alerase k m) = none := by
  induction m with
  | nil => simp [alerase]
  | cons p ps ih =>
      rw [List.map_cons, List.nodup_cons] at hnd
      by_cases hp : p.1 = k
      · subst hp
        simp only [alerase, if_pos rfl]
        exact alget_eq_none_of_not_mem _ _ hnd.1
      · simp only [alerase, if_neg hp, alget_cons, if_neg hp]
        exact ih hnd.2

theorem keys_filter_subset (f : κ × β → Bool) (m : List (κ × β)) :
    ((m.filter f).map Prod.fst) ⊆ m.map Prod.fst := by
  intro a ha
  rcases List.mem_map.mp ha with ⟨q, hq, rfl⟩
  exact List.mem_map.mpr ⟨q, List.mem_of_mem_filter hq, rfl⟩

theorem alget_filter_of_hit (k : κ) (v : β) (m : List (κ × β)) (f : κ × β → Bool)
    (hnd : (m.map Prod.fst).Nodup) (h : alget k m = some v) (hf : f (k, v) = false) :
    alget k (m.filter f) = none := by
  induction m with
  | nil => simp at h
  | cons p ps ih =>
      rw [List.map_cons, List.nodup_cons] at hnd
      by_cases hp : p.1 = k
      · have hpkv : p = (k, v) := by
          rcases p with ⟨a, b⟩
          simp only [alget_cons, if_pos hp] at h
          simp only at hp
          simp at h
          simp [hp, h]
        subst hpkv
        simp only [List.filter_cons, hf]
        apply alget_eq_none_of_not_mem
        intro hmem
        exact hnd.1 (keys_filter_subset f ps hmem)
      · simp only [alget_cons, if_neg hp] at h
        by_cases hfp : f p = true
        · simp only [List.filter_cons, hfp, if_pos True.intro, alget_cons, if_neg hp]
          exact ih hnd.2 h
        · have hfp' : f p = false := by simpa using hfp
          simp only [List.filter_cons, hfp']
          simp only [Bool.false_eq_true, if_false]
          exact ih hnd.2 h

end AListMore

/-! ## Characterization lemmas for the runtime operations -/

namespace ModelicaRuntime

theorem set_real_ok_elim {rt : ModelicaRuntime} {n : String} {v : F} {r : Unit}
    {rt' : ModelicaRuntime}
    (h : rt.set_real_variable n v = (Except.ok r, rt')) :
    v.isFinite = true ∧ alcontains n rt.real_vars = true ∧
    rt' = { rt with real_vars := alinsert n v rt.real_vars } := by
  unfold set_real_variable at h
  split at h
  · simp at h
  · split at h
    · simp at h
    · split at h
      · simp at h
      · rename_i h1 h2 h3
        simp only [Prod.mk.injEq] at h
        refine ⟨by simpa using h1, by simpa using h2, h.2.symm⟩

theorem set_real_error_elim {rt : ModelicaRuntime} {n : String} {v : F}
    {e : ComponentError} {rt' : ModelicaRuntime}
    (h : rt.set_real_variable n v = (Except.error e, rt')) : rt' = rt := by
  unfold set_real_variable at h
  split at h
  · simp only [Prod.mk.injEq] at h
    exact h.2.symm
  · split at h
    · simp only [Prod.mk.injEq] at h
      exact h.2.symm
    · split at h
      · simp only [Prod.mk.injEq] at h
        exact h.2.symm
      · simp at h

theorem set_bool_ok_elim {rt : ModelicaRuntime} {n : String} {b : Bool} {r : Unit}
    {rt' : ModelicaRuntime}
    (h : rt.set_bool_variable n b = (Except.ok r, rt')) :
    alcontains n rt.bool_vars = true ∧
    rt' = { rt with bool_vars := alinsert n b rt.bool_vars } := by
  unfold set_bool_variable at h
  split at h
  · simp at h
  · rename_i h1
    simp only [Prod.mk.injEq] at h
    exact ⟨by simpa using h1, h.2.symm⟩

theorem set_bool_error_elim {rt : ModelicaRuntime} {n : String} {b : Bool}
    {e : ComponentError} {rt' : ModelicaRuntime}
    (h : rt.set_bool_variable n b = (Except.error e, rt')) : rt' = rt := by
  unfold set_bool_variable at h
  split at h
  · simp only [Prod.mk.injEq] at h
    exact h.2.symm
  · simp at h

theorem get_real_ok_iff (rt : ModelicaRuntime) (n : String) (v : F) :
    rt.get_real_variable n = Except.ok v ↔ alget n rt.real_vars = some v := by
  unfold get_real_variable
  cases h : alget n rt.real_vars <;> simp

theorem get_bool_ok_iff (rt : ModelicaRuntime) (n : String) (b : Bool) :
    rt.get_bool_variable n = Except.ok b ↔ alget n rt.bool_vars = some b := by
  unfold get_bool_variable
  cases h : alget n rt.bool_vars <;> simp

end ModelicaRuntime

namespace ModelicaRuntime

theorem sst_ok_elim {rt : ModelicaRuntime} {dt : F} {r : Unit} {rtm : ModelicaRuntime}
    (h : rt.step_simple_thermal dt = (Except.ok r, rtm)) :
    ∃ T cap amb pow loss b,
      alget "roomTemp" rt.real_vars = some T ∧
      alget "roomCapacity" rt.real_vars = some cap ∧
      alget "ambientTemp" rt.real_vars = some amb ∧
      alget "heaterPower" rt.real_vars = some pow ∧
      alget "lossCoefficient" rt.real_vars = some loss ∧
      alget "heaterOn" rt.bool_vars = some b ∧
      (eulerTemp T cap amb pow loss b dt).isFinite = true ∧
      alcontains "temperature" rt.real_vars = true ∧
      alcontains "heaterStatus" rt.real_vars = true ∧
      rtm = { rt with
                real_vars :=
                  alinsert "heaterStatus" (heaterStatusVal b)
                    (alinsert "temperature" (eulerTemp T cap amb pow loss b dt)
                      (alinsert "roomTemp" (eulerTemp T cap amb pow loss b dt)
                        rt.real_vars)) } := by
  unfold step_simple_thermal at h
  split at h
  · simp at h
  rename_i T hT
  split at h
  · simp at h
  rename_i cap hcap
  split at h
  · simp at h
  rename_i amb hamb
  split at h
  · simp at h
  rename_i pow hpow
  split at h
  · simp at h
  rename_i loss hloss
  split at h
  · simp at h
  rename_i b hb
  rw [get_real_ok_iff] at hT hcap hamb hpow hloss
  rw [get_bool_ok_iff] at hb
  split at h
  · simp at h
  rename_i hfin
  split at h
  · simp at h
  rename_i u1 rt1 hs1
  split at h
  · simp at h
  rename_i u2 rt2 hs2
  split at h
  · simp at h
  rename_i u3 rt3 hs3
  obtain ⟨_, hc1, hrt1⟩ := set_real_ok_elim hs1
  subst hrt1
  obtain ⟨_, hc2, hrt2⟩ := set_real_ok_elim hs2
  subst hrt2
  obtain ⟨_, hc3, hrt3⟩ := set_real_ok_elim hs3
  subst hrt3
  simp only [Prod.mk.injEq] at h
  have hb2 : alcontains "temperature" rt.real_vars = true := by
    rcases Eq.mp (alcontains_alinsert "roomTemp" "temperature"
        (eulerTemp T cap amb pow loss b dt) rt.real_vars) hc2 with hx | hx
    · exact absurd hx (by decide)
    · exact hx
  have hb3 : alcontains "heaterStatus" rt.real_vars = true := by
    rcases Eq.mp (alcontains_alinsert "temperature" "heaterStatus"
        (eulerTemp T cap amb pow loss b dt)
        (alinsert "roomTemp" (eulerTemp T cap amb pow loss b dt) rt.real_vars)) hc3
      with hx | hx
    · exact absurd hx (by decide)
    · rcases Eq.mp (alcontains_alinsert "roomTemp" "heaterStatus"
          (eulerTemp T cap amb pow loss b dt) rt.real_vars) hx with hy | hy
      · exact absurd hy (by decide)
      · exact hy
  refine ⟨T, cap, amb, pow, loss, b, hT, hcap, hamb, hpow, hloss, hb, ?_, hb2, hb3, ?_⟩
  · simpa using hfin
  · exact h.2.symm

end ModelicaRuntime

namespace ModelicaRuntime

theorem step_ok_elim {rt : ModelicaRuntime} {dt : F} {r : Unit} {rt' : ModelicaRuntime}
    (h : rt.step dt = (Except.ok r, rt')) :
    (dt.le (F.num 0) = false ∧ dt.isFinite = true) ∧
    rt.component_name = "SimpleThermalMVP" ∧
    ∃ rtm, rt.step_simple_thermal dt = (Except.ok (), rtm) ∧
      rt' = { rtm with time := rtm.time.add dt } := by
  unfold step at h
  split at h
  · simp at h
  rename_i hvalid
  split at h
  · rename_i hname
    split at h
    · simp at h
    rename_i u1 rtm hsst
    simp only [Prod.mk.injEq] at h
    push_neg at hvalid
    refine ⟨⟨by simpa using hvalid.1, by simpa using hvalid.2⟩, hname, rtm, ?_, h.2.symm⟩
    rw [hsst]
  · simp at h

end ModelicaRuntime

/-! ## Reachable states of the thermal runtime (for the reset claim)

`goodRT x y z hb t` is the shape every state reachable from the initial
"SimpleThermalMVP" runtime by `step` and boolean-input setting has: the
three thermal state variables and the heater flag and clock vary, the four
parameters stay at their initial values. -/

def goodRT (x y z : F) (hb : Bool) (t : F) : ModelicaRuntime :=
  { component_name := "SimpleThermalMVP",
    real_vars :=
      [("roomTemp", x), ("temperature", y), ("heaterStatus", z),
       ("roomCapacity", F.num 1000), ("ambientTemp", F.num 250),
       ("heaterPower", F.num 500), ("lossCoefficient", F.num 2)],
    bool_vars := [("heaterOn", hb)],
    time := t }

def GoodState (rt : ModelicaRuntime) : Prop :=
  ∃ x y z hb t, rt = goodRT x y z hb t

theorem goodState_rtInit : GoodState rtInit :=
  ⟨F.num 250, F.num 250, F.num 0, false, F.num 0, rfl⟩

theorem goodState_set_real (x y z : F) (hb : Bool) (t v : F) (n : String)
    (hn : n = "roomTemp" ∨ n = "temperature" ∨ n = "heaterStatus") :
    GoodState (((goodRT x y z hb t).set_real_variable n v).2) := by
  rcases hn with rfl | rfl | rfl
  · by_cases hf : v.isFinite = true
    · by_cases hbd : (v.lt (F.num 0) = true ∨ (F.num 1000).lt v = true)
      · simp [ModelicaRuntime.set_real_variable, hf, hbd, goodRT, alcontains, alget]
        exact ⟨x, y, z, hb, t, rfl⟩
      · simp [ModelicaRuntime.set_real_variable, hf, hbd, goodRT, alcontains, alget, alinsert]
        exact ⟨v, y, z, hb, t, rfl⟩
    · simp [ModelicaRuntime.set_real_variable, hf]
      exact ⟨x, y, z, hb, t, rfl⟩
  · by_cases hf : v.isFinite = true
    · by_cases hbd : (v.lt (F.num 0) = true ∨ (F.num 1000).lt v = true)
      · simp [ModelicaRuntime.set_real_variable, hf, hbd, goodRT, alcontains, alget]
        exact ⟨x, y, z, hb, t, rfl⟩
      · simp [ModelicaRuntime.set_real_variable, hf, hbd, goodRT, alcontains, alget, alinsert]
        exact ⟨x, v, z, hb, t, rfl⟩
    · simp [ModelicaRuntime.set_real_variable, hf]
      exact ⟨x, y, z, hb, t, rfl⟩
  · by_cases hf : v.isFinite = true
    · simp [ModelicaRuntime.set_real_variable, hf, goodRT, alcontains, alget, alinsert]
      exact ⟨x, y, v, hb, t, rfl⟩
    · simp [ModelicaRuntime.set_real_variable, hf]
      exact ⟨x, y, z, hb, t, rfl⟩

theorem goodState_set_bool (x y z : F) (hb : Bool) (t : F) (n : String) (b : Bool) :
    GoodState (((goodRT x y z hb t).set_bool_variable n b).2) := by
  by_cases hn : n = "heaterOn"
  · subst hn
    simp [ModelicaRuntime.set_bool_variable, goodRT, alcontains, alget, alinsert]
    exact ⟨x, y, z, b, t, rfl⟩
  · simp [ModelicaRuntime.set_bool_variable, goodRT, alcontains, alget, Ne.symm hn]
    exact ⟨x, y, z, hb, t, rfl⟩

theorem goodState_sst (rt : ModelicaRuntime) (dt : F) (hg : GoodState rt) :
    GoodState ((rt.step_simple_thermal dt).2) := by
  obtain ⟨x, y, z, hb, t, rfl⟩ := hg
  unfold ModelicaRuntime.step_simple_thermal
  have h1 : (goodRT x y z hb t).get_real_variable "roomTemp" = Except.ok x := rfl
  have h2 : (goodRT x y z hb t).get_real_variable "roomCapacity" = Except.ok (F.num 1000) := rfl
  have h3 : (goodRT x y z hb t).get_real_variable "ambientTemp" = Except.ok (F.num 250) := rfl
  have h4 : (goodRT x y z hb t).get_real_variable "heaterPower" = Except.ok (F.num 500) := rfl
  have h5 : (goodRT x y z hb t).get_real_variable "lossCoefficient" = Except.ok (F.num 2) := rfl
  have h6 : (goodRT x y z hb t).get_bool_variable "heaterOn" = Except.ok hb := rfl
  simp only [h1, h2, h3, h4, h5, h6]
  by_cases hfin :
      (eulerTemp x (F.num 1000) (F.num 250) (F.num 500) (F.num 2) hb dt).isFinite = true
  · have hni : ¬¬((eulerTemp x (F.num 1000) (F.num 250) (F.num 500)
        (F.num 2) hb dt).isFinite = true) := by simp [hfin]
    rw [if_neg hni]
    split
    · rename_i e rt1 hs1
      have hgx := goodState_set_real x y z hb t
        (eulerTemp x (F.num 1000) (F.num 250) (F.num 500) (F.num 2) hb dt)
        "roomTemp" (Or.inl rfl)
      rw [hs1] at hgx
      exact hgx
    · rename_i u rt1 hs1
      have hg1 : GoodState rt1 := by
        have hgx := goodState_set_real x y z hb t
          (eulerTemp x (F.num 1000) (F.num 250) (F.num 500) (F.num 2) hb dt)
          "roomTemp" (Or.inl rfl)
        rw [hs1] at hgx
        exact hgx
      obtain ⟨x1, y1, z1, hb1, t1, rfl⟩ := hg1
      split
      · rename_i e rt2 hs2
        have hgx := goodState_set_real x1 y1 z1 hb1 t1
          (eulerTemp x (F.num 1000) (F.num 250) (F.num 500) (F.num 2) hb dt)
          "temperature" (Or.inr (Or.inl rfl))
        rw [hs2] at hgx
        exact hgx
      · rename_i u2 rt2 hs2
        have hg2 : GoodState rt2 := by
          have hgx := goodState_set_real x1 y1 z1 hb1 t1
            (eulerTemp x (F.num 1000) (F.num 250) (F.num 500) (F.num 2) hb dt)
            "temperature" (Or.inr (Or.inl rfl))
          rw [hs2] at hgx
          exact hgx
        obtain ⟨x2, y2, z2, hb2, t2, rfl⟩ := hg2
        split
        · rename_i e rt3 hs3
          have hgx := goodState_set_real x2 y2 z2 hb2 t2 (heaterStatusVal hb)
            "heaterStatus" (Or.inr (Or.inr rfl))
          rw [hs3] at hgx
          exact hgx
        · rename_i u3 rt3 hs3
          have hgx := goodState_set_real x2 y2 z2 hb2 t2 (heaterStatusVal hb)
            "heaterStatus" (Or.inr (Or.inr rfl))
          rw [hs3] at hgx
          exact hgx
  · rw [if_pos hfin]
    exact ⟨x, y, z, hb, t, rfl⟩

theorem goodState_step (rt : ModelicaRuntime) (dt : F) (hg : GoodState rt) :
    GoodState ((rt.step dt).2) := by
  unfold ModelicaRuntime.step
  by_cases hdt : (dt.le (F.num 0) = true ∨ ¬ dt.isFinite = true)
  · rw [if_pos hdt]
    exact hg
  · rw [if_neg hdt]
    obtain ⟨x, y, z, hb, t, hrt⟩ := hg
    have hname : rt.component_name = "SimpleThermalMVP" := by rw [hrt]; rfl
    rw [if_pos hname]
    have hgood := goodState_sst rt dt ⟨x, y, z, hb, t, hrt⟩
    rcases hs : rt.step_simple_thermal dt with ⟨res, rtm⟩
    rw [hs] at hgood
    cases res with
    | error e => exact hgood
    | ok u =>
        obtain ⟨x1, y1, z1, hb1, t1, hrtm⟩ := hgood
        have hrtm2 : rtm = goodRT x1 y1 z1 hb1 t1 := hrtm
        subst hrtm2
        exact ⟨x1, y1, z1, hb1, t1.add dt, rfl⟩

/-- Calling `reset` on any reachable-shaped state succeeds and restores exactly the
initial runtime. -/
theorem reset_goodRT (x y z : F) (hb : Bool) (t : F) :
    (goodRT x y z hb t).reset = (Except.ok (), rtInit) := rfl

/-! ## Operation sequences on the thermal runtime -/

/-- The operations a caller may perform on the thermal runtime between
creation and reset, for the reset claim: time steps and boolean-input
updates (the thermal component's only declared input is the boolean
`heaterOn`; it accepts no real-valued inputs). -/
inductive ThermalOp where
  | stepOp (dt : F)
  | setBoolOp (name : String) (value : Bool)

def applyOp (rt : ModelicaRuntime) : ThermalOp → ModelicaRuntime
  | ThermalOp.stepOp dt => (rt.step dt).2
  | ThermalOp.setBoolOp n b => (rt.set_bool_variable n b).2

def applyOps (rt : ModelicaRuntime) (ops : List ThermalOp) : ModelicaRuntime :=
  ops.foldl applyOp rt

theorem goodState_applyOp (rt : ModelicaRuntime) (op : ThermalOp) (hg : GoodState rt) :
    GoodState (applyOp rt op) := by
  cases op with
  | stepOp dt => exact goodState_step rt dt hg
  | setBoolOp n b =>
      obtain ⟨x, y, z, hb, t, rfl⟩ := hg
      exact goodState_set_bool x y z hb t n b

theorem goodState_applyOps (ops : List ThermalOp) :
    ∀ rt : ModelicaRuntime, GoodState rt → GoodState (applyOps rt ops) := by
  induction ops with
  | nil => intro rt hg; exact hg
  | cons op ops ih =>
      intro rt hg
      exact ih _ (goodState_applyOp rt op hg)

/-! ## The successful-step characterization used by the step claims -/

theorem step_euler_char {rt rt' : ModelicaRuntime} {dt T cap amb pow loss : F} {b : Bool}
    (hT : rt.get_real_variable "roomTemp" = Except.ok T)
    (hcap : rt.get_real_variable "roomCapacity" = Except.ok cap)
    (hamb : rt.get_real_variable "ambientTemp" = Except.ok amb)
    (hpow : rt.get_real_variable "heaterPower" = Except.ok pow)
    (hloss : rt.get_real_variable "lossCoefficient" = Except.ok loss)
    (hb : rt.get_bool_variable "heaterOn" = Except.ok b)
    (h : rt.step dt = (Except.ok (), rt')) :
    rt'.get_real_variable "roomTemp" = Except.ok (eulerTemp T cap amb pow loss b dt) ∧
    rt'.get_real_variable "temperature" = Except.ok (eulerTemp T cap amb pow loss b dt) ∧
    rt'.get_real_variable "heaterStatus" = Except.ok (heaterStatusVal b) ∧
    rt'.time = rt.time.add dt := by
  obtain ⟨hdt, hname, rtm, hsst, hrt'⟩ := ModelicaRuntime.step_ok_elim h
  obtain ⟨T0, cap0, amb0, pow0, loss0, b0, hT0, hcap0, hamb0, hpow0, hloss0, hb0,
    hfin0, hct, hch, hrtm⟩ := ModelicaRuntime.sst_ok_elim hsst
  rw [ModelicaRuntime.get_real_ok_iff] at hT hcap hamb hpow hloss
  rw [ModelicaRuntime.get_bool_ok_iff] at hb
  rw [hT] at hT0
  rw [hcap] at hcap0
  rw [hamb] at hamb0
  rw [hpow] at hpow0
  rw [hloss] at hloss0
  rw [hb] at hb0
  injection hT0 with eT
  injection hcap0 with ecap
  injection hamb0 with eamb
  injection hpow0 with epow
  injection hloss0 with eloss
  injection hb0 with eb
  subst eT
  subst ecap
  subst eamb
  subst epow
  subst eloss
  subst eb
  have hrv : rt'.real_vars =
      alinsert "heaterStatus" (heaterStatusVal b)
        (alinsert "temperature" (eulerTemp T cap amb pow loss b dt)
          (alinsert "roomTemp" (eulerTemp T cap amb pow loss b dt)
            rt.real_vars)) := by
    rw [hrt', hrtm]
  have htime : rt'.time = rt.time.add dt := by
    rw [hrt', hrtm]
  refine ⟨?_, ?_, ?_, htime⟩
  · rw [ModelicaRuntime.get_real_ok_iff, hrv,
      alget_alinsert_ne _ _ _ _ (by decide), alget_alinsert_ne _ _ _ _ (by decide),
      alget_alinsert_self]
  · rw [ModelicaRuntime.get_real_ok_iff, hrv,
      alget_alinsert_ne _ _ _ _ (by decide), alget_alinsert_self]
  · rw [ModelicaRuntime.get_real_ok_iff, hrv, alget_alinsert_self]

/-! ## Claim theorems -/

/-- C1: for the thermal simulation runtime, `step(dt)` fails with
`StepFailed` whenever `dt ≤ 0`, or `dt` is NaN or infinite, and also fails
with `StepFailed` when the computed temperature is not finite; in both
failure modes the entire state (all variables and the simulation time) is
returned unchanged. -/
theorem step_fails_and_preserves_state (rt : ModelicaRuntime)
    (dt T cap amb pow loss : F) (b : Bool) :
    ((dt.le (F.num 0) = true ∨ dt.isFinite = false) →
      rt.step dt = (Except.error (ComponentError.StepFailed
          "Invalid timestep. Must be positive and finite."), rt)) ∧
    (dt.le (F.num 0) = false → dt.isFinite = true →
      rt.component_name = "SimpleThermalMVP" →
      rt.get_real_variable "roomTemp" = Except.ok T →
      rt.get_real_variable "roomCapacity" = Except.ok cap →
      rt.get_real_variable "ambientTemp" = Except.ok amb →
      rt.get_real_variable "heaterPower" = Except.ok pow →
      rt.get_real_variable "lossCoefficient" = Except.ok loss →
      rt.get_bool_variable "heaterOn" = Except.ok b →
      (eulerTemp T cap amb pow loss b dt).isFinite = false →
      rt.step dt = (Except.error (ComponentError.StepFailed
          "Temperature calculation resulted in non-finite value"), rt)) := by
  constructor
  · intro hdt
    unfold ModelicaRuntime.step
    rw [if_pos]
    rcases hdt with hdt | hdt
    · exact Or.inl hdt
    · exact Or.inr (by simp [hdt])
  · intro h1 h2 hname hT hcap hamb hpow hloss hb hfin
    unfold ModelicaRuntime.step
    rw [if_neg (by
      intro hc
      rcases hc with hc | hc
      · rw [h1] at hc
        cases hc
      · exact hc h2)]
    rw [if_pos hname]
    have hsst : rt.step_simple_thermal dt =
        (Except.error (ComponentError.StepFailed
          "Temperature calculation resulted in non-finite value"), rt) := by
      unfold ModelicaRuntime.step_simple_thermal
      simp only [hT, hcap, hamb, hpow, hloss, hb]
      rw [if_pos (by simp [hfin])]
    rw [hsst]

/-- The initial runtime with `roomCapacity` overwritten to `0.0`, on which
the Euler update computes `0/0 = NaN`. -/
def rtCap0 : ModelicaRuntime :=
  (rtInit.set_real_variable "roomCapacity" (F.num 0)).2

theorem step_fails_and_preserves_state_witness :
    rtInit.step (F.num 0) = (Except.error (ComponentError.StepFailed
        "Invalid timestep. Must be positive and finite."), rtInit) ∧
    rtCap0.step (F.num 1) = (Except.error (ComponentError.StepFailed
        "Temperature calculation resulted in non-finite value"), rtCap0) := by
  constructor
  · exact (step_fails_and_preserves_state rtInit (F.num 0) (F.num 250) (F.num 1000)
      (F.num 250) (F.num 500) (F.num 2) false).1 (Or.inl (by decide))
  · exact (step_fails_and_preserves_state rtCap0 (F.num 1) (F.num 250) (F.num 0)
      (F.num 250) (F.num 500) (F.num 2) false).2
      (by decide) (by decide) rfl rfl rfl rfl rfl rfl rfl
      (by norm_num [eulerTemp, F.div, F.mul, F.add, F.sub, F.neg, F.isFinite])

/-- C2: on every successful `step(dt)` of the thermal runtime (with the
parameter variables at their declared values 1000.0 / 250.0 / 500.0 / 2.0),
the new `roomTemp` is `roomTemp + (heating − losses) / roomCapacity * dt`
with `heating = 500 if heaterOn else 0` and `losses = 2 * (roomTemp − 250)`,
the alias `temperature` equals the new `roomTemp`, `heaterStatus` becomes
`1.0` if the heater is on and `0.0` otherwise, and the simulation time
advances by exactly `dt`. -/
theorem step_euler_update (rt rt' : ModelicaRuntime) (dt T : F) (b : Bool)
    (hT : rt.get_real_variable "roomTemp" = Except.ok T)
    (hcap : rt.get_real_variable "roomCapacity" = Except.ok (F.num 1000))
    (hamb : rt.get_real_variable "ambientTemp" = Except.ok (F.num 250))
    (hpow : rt.get_real_variable "heaterPower" = Except.ok (F.num 500))
    (hloss : rt.get_real_variable "lossCoefficient" = Except.ok (F.num 2))
    (hb : rt.get_bool_variable "heaterOn" = Except.ok b)
    (h : rt.step dt = (Except.ok (), rt')) :
    rt'.get_real_variable "roomTemp" =
      Except.ok (T.add ((((if b then F.num 500 else F.num 0).sub
        ((F.num 2).mul (T.sub (F.num 250)))).div (F.num 1000)).mul dt)) ∧
    rt'.get_real_variable "temperature" =
      Except.ok (T.add ((((if b then F.num 500 else F.num 0).sub
        ((F.num 2).mul (T.sub (F.num 250)))).div (F.num 1000)).mul dt)) ∧
    rt'.get_real_variable "heaterStatus" =
      Except.ok (if b then F.num 1 else F.num 0) ∧
    rt'.time = rt.time.add dt := by
  have hc := step_euler_char hT hcap hamb hpow hloss hb h
  exact ⟨hc.1, hc.2.1, hc.2.2.1, hc.2.2.2⟩

/-- The value of `eulerTemp` at the initial state with the heater off and
`dt = 1`: the temperature is already at the ambient fixed point. -/
theorem eulerTemp_init_off :
    eulerTemp (F.num 250) (F.num 1000) (F.num 250) (F.num 500) (F.num 2) false (F.num 1)
      = F.num 250 := by
  norm_num [eulerTemp, F.div]

/-- The concrete result of one `dt = 1` step from the initial runtime. -/
theorem rtInit_step_one :
    rtInit.step (F.num 1) =
      (Except.ok (), goodRT (F.num 250) (F.num 250) (F.num 0) false (F.num 1)) := by
  unfold ModelicaRuntime.step
  rw [if_neg (by decide)]
  rw [if_pos (show rtInit.component_name = "SimpleThermalMVP" from rfl)]
  have hsst : rtInit.step_simple_thermal (F.num 1) =
      (Except.ok (), goodRT (F.num 250) (F.num 250) (F.num 0) false (F.num 0)) := by
    unfold ModelicaRuntime.step_simple_thermal
    simp only [show rtInit.get_real_variable "roomTemp" = Except.ok (F.num 250) from rfl,
      show rtInit.get_real_variable "roomCapacity" = Except.ok (F.num 1000) from rfl,
      show rtInit.get_real_variable "ambientTemp" = Except.ok (F.num 250) from rfl,
      show rtInit.get_real_variable "heaterPower" = Except.ok (F.num 500) from rfl,
      show rtInit.get_real_variable "lossCoefficient" = Except.ok (F.num 2) from rfl,
      show rtInit.get_bool_variable "heaterOn" = Except.ok false from rfl,
      eulerTemp_init_off]
    rfl
  rw [hsst]
  norm_num [goodRT]

theorem step_euler_update_witness :
    (goodRT (F.num 250) (F.num 250) (F.num 0) false (F.num 1)).get_real_variable "temperature" =
      Except.ok ((F.num 250).add ((((if false then F.num 500 else F.num 0).sub
        ((F.num 2).mul ((F.num 250).sub (F.num 250)))).div (F.num 1000)).mul (F.num 1))) ∧
    (goodRT (F.num 250) (F.num 250) (F.num 0) false (F.num 1)).time =
      rtInit.time.add (F.num 1) := by
  have h := step_euler_update rtInit (goodRT (F.num 250) (F.num 250) (F.num 0) false (F.num 1))
    (F.num 1) (F.num 250) false rfl rfl rfl rfl rfl rfl rtInit_step_one
  exact ⟨h.2.1, h.2.2.2⟩

/-- C3: for every finite `dt > 0`, a successful step of the thermal runtime
(parameters at their declared values) with the heater on strictly increases
the temperature whenever `roomTemp < 500` (the steady-state ceiling
`ambientTemp + heaterPower/lossCoefficient`), and with the heater off
strictly decreases it whenever `roomTemp > 250` (the ambient value). -/
theorem step_monotone_temperature (rt rt' : ModelicaRuntime) (T d : ℚ) (b : Bool)
    (hT : rt.get_real_variable "roomTemp" = Except.ok (F.num T))
    (hcap : rt.get_real_variable "roomCapacity" = Except.ok (F.num 1000))
    (hamb : rt.get_real_variable "ambientTemp" = Except.ok (F.num 250))
    (hpow : rt.get_real_variable "heaterPower" = Except.ok (F.num 500))
    (hloss : rt.get_real_variable "lossCoefficient" = Except.ok (F.num 2))
    (hb : rt.get_bool_variable "heaterOn" = Except.ok b)
    (hd : 0 < d)
    (h : rt.step (F.num d) = (Except.ok (), rt')) :
    (b = true → T < 500 →
      ∃ T2 : ℚ, rt'.get_real_variable "temperature" = Except.ok (F.num T2) ∧ T < T2) ∧
    (b = false → 250 < T →
      ∃ T2 : ℚ, rt'.get_real_variable "temperature" = Except.ok (F.num T2) ∧ T2 < T) := by
  have hdiv : ∀ a : ℚ, (F.num a).div (F.num 1000) = F.num (a / 1000) :=
    fun a => F.div_num_of_ne a 1000 (by norm_num)
  have hch := step_euler_char hT hcap hamb hpow hloss hb h
  constructor
  · intro hb1 hlt
    subst hb1
    have hval : eulerTemp (F.num T) (F.num 1000) (F.num 250) (F.num 500) (F.num 2)
        true (F.num d) = F.num (T + (500 - 2 * (T - 250)) / 1000 * d) := by
      simp [eulerTemp, hdiv]
    refine ⟨T + (500 - 2 * (T - 250)) / 1000 * d, ?_, ?_⟩
    · rw [hch.2.1, hval]
    · have h1 : 0 < 500 - 2 * (T - 250) := by linarith
      have h2 : 0 < (500 - 2 * (T - 250)) / 1000 * d :=
        mul_pos (div_pos h1 (by norm_num)) hd
      linarith
  · intro hb1 hgt
    subst hb1
    have hval : eulerTemp (F.num T) (F.num 1000) (F.num 250) (F.num 500) (F.num 2)
        false (F.num d) = F.num (T + (0 - 2 * (T - 250)) / 1000 * d) := by
      simp [eulerTemp, hdiv]
    refine ⟨T + (0 - 2 * (T - 250)) / 1000 * d, ?_, ?_⟩
    · rw [hch.2.1, hval]
    · have h1 : 0 - 2 * (T - 250) < 0 := by linarith
      have h2 : (0 - 2 * (T - 250)) / 1000 * d < 0 :=
        mul_neg_of_neg_of_pos (div_neg_of_neg_of_pos h1 (by norm_num)) hd
      linarith

/-- The initial runtime with the heater switched on. -/
def rtH : ModelicaRuntime := (rtInit.set_bool_variable "heaterOn" true).2

theorem eulerTemp_init_on :
    eulerTemp (F.num 250) (F.num 1000) (F.num 250) (F.num 500) (F.num 2) true (F.num 1)
      = F.num (501 / 2) := by
  norm_num [eulerTemp, F.div]

/-- The concrete result of one `dt = 1` step with the heater on. -/
theorem rtH_step_one :
    rtH.step (F.num 1) =
      (Except.ok (), goodRT (F.num (501 / 2)) (F.num (501 / 2)) (F.num 1) true (F.num 1)) := by
  unfold ModelicaRuntime.step
  rw [if_neg (by decide)]
  rw [if_pos (show rtH.component_name = "SimpleThermalMVP" from rfl)]
  have hs1 : rtH.set_real_variable "roomTemp" (F.num (501 / 2)) =
      (Except.ok (), goodRT (F.num (501 / 2)) (F.num 250) (F.num 0) true (F.num 0)) := by
    unfold ModelicaRuntime.set_real_variable
    rw [if_neg (by simp), if_neg (by simp [alcontains, rtH, rtInit,
      ModelicaRuntime.set_bool_variable, alinsert, alget]),
      if_neg (by norm_num)]
    rfl
  have hs2 : (goodRT (F.num (501 / 2)) (F.num 250) (F.num 0) true
        (F.num 0)).set_real_variable "temperature" (F.num (501 / 2)) =
      (Except.ok (), goodRT (F.num (501 / 2)) (F.num (501 / 2)) (F.num 0) true (F.num 0)) := by
    unfold ModelicaRuntime.set_real_variable
    rw [if_neg (by simp), if_neg (by simp [alcontains, goodRT, alget]),
      if_neg (by norm_num)]
    rfl
  have hs3 : (goodRT (F.num (501 / 2)) (F.num (501 / 2)) (F.num 0) true
        (F.num 0)).set_real_variable "heaterStatus" (F.num 1) =
      (Except.ok (), goodRT (F.num (501 / 2)) (F.num (501 / 2)) (F.num 1) true (F.num 0)) := by
    unfold ModelicaRuntime.set_real_variable
    rw [if_neg (by simp), if_neg (by simp [alcontains, goodRT, alget]),
      if_neg (by simp)]
    rfl
  have hsst : rtH.step_simple_thermal (F.num 1) =
      (Except.ok (), goodRT (F.num (501 / 2)) (F.num (501 / 2)) (F.num 1) true (F.num 0)) := by
    unfold ModelicaRuntime.step_simple_thermal
    simp only [show rtH.get_real_variable "roomTemp" = Except.ok (F.num 250) from rfl,
      show rtH.get_real_variable "roomCapacity" = Except.ok (F.num 1000) from rfl,
      show rtH.get_real_variable "ambientTemp" = Except.ok (F.num 250) from rfl,
      show rtH.get_real_variable "heaterPower" = Except.ok (F.num 500) from rfl,
      show rtH.get_real_variable "lossCoefficient" = Except.ok (F.num 2) from rfl,
      show rtH.get_bool_variable "heaterOn" = Except.ok true from rfl,
      eulerTemp_init_on, heaterStatusVal, if_true, hs1, hs2, hs3]
    rfl
  rw [hsst]
  norm_num [goodRT]

theorem step_monotone_temperature_witness :
    (0:ℚ) < 1 ∧ (250:ℚ) < 500 ∧
    ∃ T2 : ℚ, (goodRT (F.num (501 / 2)) (F.num (501 / 2)) (F.num 1) true
        (F.num 1)).get_real_variable "temperature" = Except.ok (F.num T2) ∧ (250:ℚ) < T2 := by
  refine ⟨by norm_num, by norm_num, ?_⟩
  exact (step_monotone_temperature rtH
    (goodRT (F.num (501 / 2)) (F.num (501 / 2)) (F.num 1) true (F.num 1)) 250 1 true
    rfl rfl rfl rfl rfl rfl (by norm_num) rtH_step_one).1 rfl (by norm_num)

/-- C10: a successful `step(dt)` of the runtime modifies only the real
variables `roomTemp`, `temperature` and `heaterStatus` and the simulation
time: every other real variable, the boolean variables (hence `heaterOn`),
the component name and the set (and order) of declared real-variable keys
are unchanged. -/
theorem step_frame (rt rt' : ModelicaRuntime) (dt : F)
    (h : rt.step dt = (Except.ok (), rt')) :
    (∀ k : String, k ≠ "roomTemp" → k ≠ "temperature" → k ≠ "heaterStatus" →
        alget k rt'.real_vars = alget k rt.real_vars) ∧
    rt'.bool_vars = rt.bool_vars ∧
    rt'.component_name = rt.component_name ∧
    rt'.real_vars.map Prod.fst = rt.real_vars.map Prod.fst ∧
    rt'.time = rt.time.add dt := by
  obtain ⟨hdt, hname, rtm, hsst, hrt'⟩ := ModelicaRuntime.step_ok_elim h
  obtain ⟨T, cap, amb, pow, loss, b, hT, hcap, hamb, hpow, hloss, hb, hfin, hct, hch, hrtm⟩ :=
    ModelicaRuntime.sst_ok_elim hsst
  have hrv : rt'.real_vars = alinsert "heaterStatus" (heaterStatusVal b)
      (alinsert "temperature" (eulerTemp T cap amb pow loss b dt)
        (alinsert "roomTemp" (eulerTemp T cap amb pow loss b dt) rt.real_vars)) := by
    rw [hrt', hrtm]
  have hbv : rt'.bool_vars = rt.bool_vars := by rw [hrt', hrtm]
  have hcn : rt'.component_name = rt.component_name := by rw [hrt', hrtm]
  have htm : rt'.time = rt.time.add dt := by rw [hrt', hrtm]
  refine ⟨?_, hbv, hcn, ?_, htm⟩
  · intro k h1 h2 h3
    rw [hrv, alget_alinsert_ne _ _ _ _ h3, alget_alinsert_ne _ _ _ _ h2,
      alget_alinsert_ne _ _ _ _ h1]
  · have c1 : alcontains "roomTemp" rt.real_vars = true := by
      simp [alcontains, hT]
    have c2 : alcontains "temperature"
        (alinsert "roomTemp" (eulerTemp T cap amb pow loss b dt) rt.real_vars) = true :=
      Eq.mpr (alcontains_alinsert _ _ _ _) (Or.inr hct)
    have c2h : alcontains "heaterStatus"
        (alinsert "roomTemp" (eulerTemp T cap amb pow loss b dt) rt.real_vars) = true :=
      Eq.mpr (alcontains_alinsert _ _ _ _) (Or.inr hch)
    have c3 : alcontains "heaterStatus"
        (alinsert "temperature" (eulerTemp T cap amb pow loss b dt)
          (alinsert "roomTemp" (eulerTemp T cap amb pow loss b dt) rt.real_vars)) = true :=
      Eq.mpr (alcontains_alinsert _ _ _ _) (Or.inr c2h)
    rw [hrv, keys_alinsert_of_contains _ _ _ c3, keys_alinsert_of_contains _ _ _ c2,
      keys_alinsert_of_contains _ _ _ c1]

theorem step_frame_witness :
    alget "roomCapacity" ((goodRT (F.num 250) (F.num 250) (F.num 0) false
        (F.num 1)).real_vars) = alget "roomCapacity" rtInit.real_vars ∧
    (goodRT (F.num 250) (F.num 250) (F.num 0) false (F.num 1)).bool_vars =
      rtInit.bool_vars := by
  have h := step_frame rtInit (goodRT (F.num 250) (F.num 250) (F.num 0) false (F.num 1))
    (F.num 1) rtInit_step_one
  exact ⟨h.1 "roomCapacity" (by decide) (by decide) (by decide), h.2.1⟩

/-- C4: `set_real_variable(name, value)` fails with `InvalidInput` when the
value is NaN or infinite; otherwise fails with `VariableNotFound` when the
name is not a declared real variable; otherwise, for `temperature` or
`roomTemp`, fails with `BoundsCheckFailed(name, value, 0, 1000)` when the
value is below 0 or above 1000 (the bounds themselves are accepted);
otherwise it succeeds and overwrites the prior value.  Failures leave the
state unchanged. -/
theorem set_real_variable_spec (rt : ModelicaRuntime) (name : String) (v : F) :
    (v.isFinite = false →
      rt.set_real_variable name v = (Except.error (ComponentError.InvalidInput
          ("Value for '" ++ name ++ "' must be finite")), rt)) ∧
    (v.isFinite = true → alcontains name rt.real_vars = false →
      rt.set_real_variable name v =
        (Except.error (ComponentError.VariableNotFound name), rt)) ∧
    (v.isFinite = true → alcontains name rt.real_vars = true →
      (name = "temperature" ∨ name = "roomTemp") →
      (v.lt (F.num 0) = true ∨ (F.num 1000).lt v = true) →
      rt.set_real_variable name v =
        (Except.error (ComponentError.BoundsCheckFailed name v (F.num 0) (F.num 1000)), rt)) ∧
    (v.isFinite = true → alcontains name rt.real_vars = true →
      ¬ ((name = "temperature" ∨ name = "roomTemp") ∧
         (v.lt (F.num 0) = true ∨ (F.num 1000).lt v = true)) →
      (rt.set_real_variable name v).1 = Except.ok () ∧
      ((rt.set_real_variable name v).2).get_real_variable name = Except.ok v) := by
  refine ⟨?_, ?_, ?_, ?_⟩
  · intro hf
    unfold ModelicaRuntime.set_real_variable
    rw [if_pos (by simp [hf])]
  · intro hf hc
    unfold ModelicaRuntime.set_real_variable
    rw [if_neg (by simp [hf]), if_pos (by simp [hc])]
  · intro hf hc hn hb
    unfold ModelicaRuntime.set_real_variable
    rw [if_neg (by simp [hf]), if_neg (by simp [hc]), if_pos ⟨hn, hb⟩]
  · intro hf hc hnb
    unfold ModelicaRuntime.set_real_variable
    rw [if_neg (by simp [hf]), if_neg (by simp [hc]), if_neg hnb]
    refine ⟨rfl, ?_⟩
    rw [ModelicaRuntime.get_real_ok_iff]
    simp

theorem set_real_variable_spec_witness :
    rtInit.set_real_variable "temperature" F.nan =
      (Except.error (ComponentError.InvalidInput
        ("Value for '" ++ "temperature" ++ "' must be finite")), rtInit) ∧
    rtInit.set_real_variable "bogus" (F.num 1) =
      (Except.error (ComponentError.VariableNotFound "bogus"), rtInit) ∧
    rtInit.set_real_variable "temperature" (F.num 2000) =
      (Except.error (ComponentError.BoundsCheckFailed "temperature" (F.num 2000)
        (F.num 0) (F.num 1000)), rtInit) ∧
    (rtInit.set_real_variable "temperature" (F.num 1000)).1 = Except.ok () ∧
    ((rtInit.set_real_variable "temperature" (F.num 1000)).2).get_real_variable
      "temperature" = Except.ok (F.num 1000) := by
  refine ⟨?_, ?_, ?_, ?_⟩
  · exact (set_real_variable_spec rtInit "temperature" F.nan).1 rfl
  · exact (set_real_variable_spec rtInit "bogus" (F.num 1)).2.1 rfl rfl
  · exact (set_real_variable_spec rtInit "temperature" (F.num 2000)).2.2.1 rfl rfl
      (Or.inl rfl) (Or.inr (by decide))
  · exact (set_real_variable_spec rtInit "temperature" (F.num 1000)).2.2.2 rfl rfl
      (by decide)

/-- C5: on the thermal runtime, `reset()` always succeeds after any prior
sequence of `step` and input-setting operations, restoring exactly the
state produced by initialization (`roomTemp` and `temperature` 250.0,
`heaterStatus` 0.0, `heaterOn` false, simulation time 0.0), and it is
idempotent. -/
theorem reset_restores_initial_state (ops : List ThermalOp) :
    (applyOps rtInit ops).reset = (Except.ok (), rtInit) ∧
    ((applyOps rtInit ops).reset.2).reset = (applyOps rtInit ops).reset ∧
    ModelicaRuntime.new "SimpleThermalMVP" = Except.ok rtInit ∧
    alget "roomTemp" rtInit.real_vars = some (F.num 250) ∧
    alget "temperature" rtInit.real_vars = some (F.num 250) ∧
    alget "heaterStatus" rtInit.real_vars = some (F.num 0) ∧
    alget "heaterOn" rtInit.bool_vars = some false ∧
    rtInit.time = F.num 0 := by
  have hg : GoodState (applyOps rtInit ops) := goodState_applyOps ops rtInit goodState_rtInit
  obtain ⟨x, y, z, hb, t, heq⟩ := hg
  have h1 : (applyOps rtInit ops).reset = (Except.ok (), rtInit) := by
    rw [heq]
    exact reset_goodRT x y z hb t
  refine ⟨h1, ?_, new_simple_thermal, rfl, rfl, rfl, rfl, rfl⟩
  rw [h1]
  exact reset_goodRT (F.num 250) (F.num 250) (F.num 0) false (F.num 0)

/-- C6: for the trait-level thermal component, `set_input` fails with
`InvalidInput` naming the offending key for every name and value and leaves
the state unchanged, while `set_bool_input` succeeds exactly for the name
`heaterOn` (setting the flag) and fails with `InvalidInput` for every other
name, leaving the state unchanged. -/
theorem thermal_inputs_spec (c : SimpleThermalComponent) (name : String) (v : F) (b : Bool) :
    c.set_input name v = (Except.error (ComponentError.InvalidInput
        ("SimpleThermal has no real inputs. Got: " ++ name)), c) ∧
    c.set_bool_input "heaterOn" b = (Except.ok (), { c with heater_on := b }) ∧
    (name ≠ "heaterOn" →
      c.set_bool_input name b = (Except.error (ComponentError.InvalidInput
          ("Unknown boolean input: " ++ name)), c)) := by
  refine ⟨rfl, ?_, ?_⟩
  · unfold SimpleThermalComponent.set_bool_input
    rw [if_pos rfl]
  · intro hn
    unfold SimpleThermalComponent.set_bool_input
    rw [if_neg hn]

theorem thermal_inputs_spec_witness :
    SimpleThermalComponent.new.set_bool_input "foo" true =
      (Except.error (ComponentError.InvalidInput ("Unknown boolean input: " ++ "foo")),
        SimpleThermalComponent.new) :=
  (thermal_inputs_spec SimpleThermalComponent.new "foo" (F.num 0) true).2.2 (by decide)

/-- C7: `add(name, component)` (with the random `Uuid::new_v4()` draw made
explicit) fails with `InitializationFailed` leaving the registry unchanged
when the name is already registered; otherwise it inserts the component
under the generated identifier, returns that identifier, and afterwards
`get_by_name(name)` finds the component. -/
theorem registry_add_spec (C : Type) (r : ComponentRegistry C) (id : Nat)
    (name : String) (c : C) :
    (alcontains name r.name_to_id = true →
      r.add id name c = (Except.error (ComponentError.InitializationFailed
          ("Component with name '" ++ name ++ "' already exists")), r)) ∧
    (alcontains name r.name_to_id = false →
      (r.add id name c).1 = Except.ok id ∧
      ((r.add id name c).2).get_by_name name = some c) := by
  constructor
  · intro hc
    unfold ComponentRegistry.add ComponentRegistry.add_component
    rw [if_pos hc]
  · intro hc
    unfold ComponentRegistry.add ComponentRegistry.add_component
    rw [if_neg (by simp [hc])]
    refine ⟨rfl, ?_⟩
    unfold ComponentRegistry.get_by_name
    simp

theorem registry_add_spec_witness :
    ((((ComponentRegistry.new Nat).add 3 "a" 7).1 = Except.ok 3) ∧
      ((((ComponentRegistry.new Nat).add 3 "a" 7).2).get_by_name "a" = some 7)) ∧
    ((((ComponentRegistry.new Nat).add 3 "a" 7).2).add 4 "a" 9 =
      (Except.error (ComponentError.InitializationFailed
        ("Component with name '" ++ "a" ++ "' already exists")),
        (((ComponentRegistry.new Nat).add 3 "a" 7).2))) := by
  constructor
  · exact (registry_add_spec Nat (ComponentRegistry.new Nat) 3 "a" 7).2 rfl
  · exact (registry_add_spec Nat (((ComponentRegistry.new Nat).add 3 "a" 7).2) 4 "a" 9).1 rfl

/-- C8: `remove(id)` fails with `InvalidInput` leaving the registry
unchanged when the identifier is absent; otherwise it removes the component
and every name mapping pointing to it, so that `get(id)` and `get_by_name`
of any name that mapped to `id` afterwards return none.  The `Nodup`
hypotheses are the key-uniqueness representation invariant of the two
`HashMap`s. -/
theorem registry_remove_spec (C : Type) (r : ComponentRegistry C) (id : Nat)
    (hnd : (r.name_to_id.map Prod.fst).Nodup)
    (hcd : (r.components.map Prod.fst).Nodup) :
    (alcontains id r.components = false →
      r.remove id = (Except.error (ComponentError.InvalidInput
          ("Component " ++ toString id ++ " not found")), r)) ∧
    (alcontains id r.components = true →
      (r.remove id).1 = Except.ok () ∧
      ((r.remove id).2).get id = none ∧
      (∀ n : String, alget n r.name_to_id = some id →
        ((r.remove id).2).get_by_name n = none)) := by
  constructor
  · intro hc
    unfold ComponentRegistry.remove
    rw [if_neg (by simp [hc])]
  · intro hc
    unfold ComponentRegistry.remove
    rw [if_pos hc]
    refine ⟨rfl, ?_, ?_⟩
    · unfold ComponentRegistry.get
      exact alget_alerase_self id r.components hcd
    · intro n hn
      have hnone : alget n (r.name_to_id.filter (fun p => decide (p.2 ≠ id))) = none :=
        alget_filter_of_hit n id r.name_to_id _ hnd hn (by simp)
      show (alget n (r.name_to_id.filter (fun p => decide (p.2 ≠ id)))).bind
          (fun i => alget i (alerase id r.components)) = none
      rw [hnone]
      rfl

/-- The one-entry registry used as the concrete removal example. -/
def reg1 : ComponentRegistry Nat := (((ComponentRegistry.new Nat).add 3 "a" 7).2)

theorem registry_remove_spec_witness :
    reg1.remove 99 = (Except.error (ComponentError.InvalidInput
      ("Component " ++ toString 99 ++ " not found")), reg1) ∧
    (reg1.remove 3).1 = Except.ok () ∧
    ((reg1.remove 3).2).get 3 = none ∧
    ((reg1.remove 3).2).get_by_name "a" = none := by
  have h3 := registry_remove_spec Nat reg1 3 (by decide) (by decide)
  have h99 := registry_remove_spec Nat reg1 99 (by decide) (by decide)
  exact ⟨h99.1 rfl, (h3.2 rfl).1, (h3.2 rfl).2.1, (h3.2 rfl).2.2 "a" rfl⟩

/-- Every entry of the name-to-identifier map points to a key of the
components map. -/
def NamesValid (C : Type) (r : ComponentRegistry C) : Prop :=
  ∀ p ∈ r.name_to_id, alcontains p.2 r.components = true

theorem namesValid_new (C : Type) : NamesValid C (ComponentRegistry.new C) := by
  intro p hp
  simp [ComponentRegistry.new] at hp

theorem namesValid_add_component (C : Type) (r : ComponentRegistry C) (id : Nat)
    (name : String) (c : C) (hv : NamesValid C r) :
    NamesValid C ((r.add_component id name c).2) := by
  unfold ComponentRegistry.add_component
  by_cases hc : alcontains name r.name_to_id = true
  · rw [if_pos hc]
    exact hv
  · rw [if_neg hc]
    intro p hp
    rcases mem_alinsert _ _ _ _ hp with rfl | hpm
    · exact Eq.mpr (alcontains_alinsert _ _ _ _) (Or.inl rfl)
    · exact Eq.mpr (alcontains_alinsert _ _ _ _) (Or.inr (hv p hpm))

theorem namesValid_add (C : Type) (r : ComponentRegistry C) (id : Nat)
    (name : String) (c : C) (hv : NamesValid C r) :
    NamesValid C ((r.add id name c).2) := by
  have heq : ((r.add id name c).2) = ((r.add_component id name c).2) := by
    unfold ComponentRegistry.add
    rcases h : r.add_component id name c with ⟨res, r2⟩
    cases res <;> rfl
  rw [heq]
  exact namesValid_add_component C r id name c hv

theorem namesValid_remove (C : Type) (r : ComponentRegistry C) (id : Nat)
    (hv : NamesValid C r) : NamesValid C ((r.remove id).2) := by
  unfold ComponentRegistry.remove
  by_cases hc : alcontains id r.components = true
  · rw [if_pos hc]
    intro p hp
    have hpm : p ∈ r.name_to_id := List.mem_of_mem_filter hp
    have hpf := List.of_mem_filter hp
    have hpne : p.2 ≠ id := by simpa using hpf
    show (alget p.2 (alerase id r.components)).isSome = true
    rw [alget_alerase_ne id p.2 r.components hpne]
    exact hv p hpm
  · rw [if_neg hc]
    exact hv

/-- C9 (implicit): every identifier stored in the name-to-id map is a key
of the components map; this holds for a new registry and is preserved by
`add_component` (including identifier-replacing inserts), `add` and
`remove`. -/
theorem registry_name_map_invariant (C : Type) :
    NamesValid C (ComponentRegistry.new C) ∧
    (∀ (r : ComponentRegistry C) (id : Nat) (name : String) (c : C),
      NamesValid C r → NamesValid C ((r.add_component id name c).2)) ∧
    (∀ (r : ComponentRegistry C) (id : Nat) (name : String) (c : C),
      NamesValid C r → NamesValid C ((r.add id name c).2)) ∧
    (∀ (r : ComponentRegistry C) (id : Nat),
      NamesValid C r → NamesValid C ((r.remove id).2)) :=
  ⟨namesValid_new C,
   fun r id name c hv => namesValid_add_component C r id name c hv,
   fun r id name c hv => namesValid_add C r id name c hv,
   fun r id hv => namesValid_remove C r id hv⟩

theorem registry_name_map_invariant_witness :
    NamesValid Nat (((ComponentRegistry.new Nat).add_component 3 "a" 7).2) :=
  (registry_name_map_invariant Nat).2.1 (ComponentRegistry.new Nat) 3 "a" 7
    (registry_name_map_invariant Nat).1

/-- Counterexample for the trait-level reading of the step-validation
claim: `SimpleThermalComponent::step` performs no timestep validation at
all, so at `dt = -1` it succeeds instead of failing with `StepFailed`. -/
theorem simple_thermal_step_no_validation :
    (SimpleThermalComponent.new.step (F.num (-1))).1 = Except.ok () := rfl

theorem reset_restores_initial_state_witness :
    (applyOps rtInit [ThermalOp.setBoolOp "heaterOn" true, ThermalOp.stepOp (F.num 1)]).reset
      = (Except.ok (), rtInit) :=
  (reset_restores_initial_state
    [ThermalOp.setBoolOp "heaterOn" true, ThermalOp.stepOp (F.num 1)]).1
